import Mathlib

/-!
# Verification of the PR-data synchronization engine of `pr_overview.py`

This file gives a shallow embedding of the incremental pull-request data
synchronization engine found in `pr_overview.py` (`fetch_prs_data`,
`in_range`, and the upsert / watermark-advance logic inside the paging
loop), together with proofs and refutations of the specification claims
about it.

Modelling conventions:
* GitHub timestamps are ISO-8601 strings; Python compares them as strings
  (lexicographically over code points), which we model with `charListLt` /
  `pyStrLe` over `String.data`.
* The REST client (`github.repos[...][...]`) is an external collaborator,
  modelled as a record of functions (`Client`).  A network failure
  (`socket.gaierror`, or an uncaught exception from a point lookup) is an
  `Except.error ()` from the client; both abort the run in the source
  (as `EasyBuildError` resp. an uncaught traceback), modelled as
  `EngineError.networkError`.  The generic-exception sleep-and-retry loop
  around the page-listing call is not modelled: the modelled client either
  answers or fails fatally.
* Side effects that the claims talk about (remote calls, the final
  `pickle.dump`, the per-PR progress line `"* PR #%s"`) are recorded as an
  event trace (`Event`), threaded through a writer/except monad `EngM`.
* Python integers are modelled as `Nat` (all numbers involved are PR
  numbers / counts).  `pr_cnt = pr_range_high - pr_range_low + 1` uses
  truncated `Nat` subtraction; the value is only ever used in the loop
  guard `last_issue_nr < max_pr`, where a negative Python value and the
  truncated `0` both make the guard false for every `last_issue_nr`.
* `datetime.datetime.strptime(since)` in the no-progress fallback is
  called with a single argument; CPython's `strptime` requires both a
  date string and a format, so this call raises `TypeError` for every
  argument.  It is modelled as `EngineError.strptimeMissingFormat`.
-/

namespace PrOverview

/-- Python string comparison (`<`) on code-point lists, as used on the
ISO-8601 timestamp strings of the engine. -/
def charListLt : List Char → List Char → Bool
  | [], [] => false
  | [], _ :: _ => true
  | _ :: _, [] => false
  | a :: as, b :: bs =>
    if a < b then true
    else if b < a then false
    else charListLt as bs

/-- Python `a < b` on strings. -/
def pyStrLt (a b : String) : Bool := charListLt a.data b.data

/-- Python `a <= b` on strings (total order: `a <= b` iff `not (b < a)`). -/
def pyStrLe (a b : String) : Bool := ! pyStrLt b a

/-- One raw issue record as returned by the paged
`issues.get(since=..., state='all', sort='updated', direction='asc')`
listing.  `has_pull_request` models the presence of the `'pull_request'`
key that flags an issue as a PR. -/
structure Issue where
  number : Nat
  state : String
  updated_at : String
  created_at : String
  has_pull_request : Bool
  deriving DecidableEq

/-- One accumulated pull-request record as stored in `prs_data`.
Only the fields the verified claims depend on are carried; the extra
enrichment fields (`combined_status`, `issue_comments`, `merged_by`)
do not influence the control flow of `fetch_prs_data`. -/
structure PRData where
  number : Nat
  state : String
  updated_at : String
  created_at : String
  is_merged : Bool
  deriving DecidableEq

/-- The remote listing client (external collaborator).  Each call either
answers or fails (network error). -/
structure Client where
  /-- Call `gh_repo.pulls.get(per_page=...)`: preliminary listing used to
  determine `pr_cnt` when no range is given. -/
  pulls_list : Except Unit (List Issue)
  /-- Call `fetch_pr_data(github, account, repo, nr)`: full point lookup for one
  PR (pull record, commit status, comments). -/
  pr_data : Nat → Except Unit PRData
  /-- Call `gh_repo.issues.get(since=..., state='all', sort='updated',
  direction='asc')`: one page of issues updated at-or-after `since`. -/
  issues_since : String → Except Unit (List Issue)
  /-- Call `gh_repo.pulls[nr].get()['merged']`: merged flag lookup for a
  closed PR. -/
  merged : Nat → Except Unit Bool

/-- Observable effects of a run, in order of occurrence. -/
inductive Event where
  /-- The progress line `"* PR #%s"`: the engine visits/processes this PR
  number inside the paging loop. -/
  | visitPR (nr : Nat)
  /-- A point lookup against the remote API (either `fetch_pr_data` or the
  `pulls[nr].get()` merged-flag lookup). -/
  | pointLookup (nr : Nat)
  /-- The preliminary `pulls.get` listing call. -/
  | listPulls
  /-- One paged `issues.get(since=...)` call; the payload is the watermark
  the page was requested at. -/
  | listIssues (since : String)
  /-- The final `pickle.dump` of the snapshot. -/
  | persist (data : List PRData)
  deriving DecidableEq

/-- Fatal outcomes of a run. -/
inductive EngineError where
  /-- Input `--since` does not match `^[0-9]{4}-[0-9]{2}-[0-9]{2}$`. -/
  | badSinceFormat
  /-- Error `"Should not specify both --range and --since!"`. -/
  | rangeAndSince
  /-- A failed remote call (`socket.gaierror` → `EasyBuildError`, or an
  uncaught exception from a point lookup). -/
  | networkError
  /-- Taking `max([pr['number'] for pr in prs])` on an empty preliminary listing
  (`ValueError`). -/
  | maxEmptyList
  /-- Message `"Failed to replace PR data for PR #%s!"` followed by `sys.exit(1)`. -/
  | replaceFailed
  /-- Python `NameError`: the loop variable `idx` was never bound (replace path
  entered with an empty `prs_data`). -/
  | idxUnbound
  /-- Python `IndexError`: `[...][0]` on an empty list in the watermark update. -/
  | indexError
  /-- Python `TypeError` from `datetime.datetime.strptime(since)`: the mandatory
  `format` argument is missing, so the one-hour fallback crashes. -/
  | strptimeMissingFormat
  /-- Artificial fuel exhaustion of the modelled `while` loop. -/
  | outOfFuel
  deriving DecidableEq

/-- Writer/except monad for the engine: an event trace plus a result.
Events emitted before a fatal error are retained. -/
def EngM (α : Type) : Type := List Event × Except EngineError α

def EngM.pure {α : Type} (a : α) : EngM α := ([], Except.ok a)

def EngM.bind {α β : Type} (x : EngM α) (f : α → EngM β) : EngM β :=
  match x with
  | (evs, Except.error e) => (evs, Except.error e)
  | (evs, Except.ok a) => (evs ++ (f a).1, (f a).2)

instance : Monad EngM where
  pure := EngM.pure
  bind := EngM.bind

/-- Record one observable effect. -/
def emit (e : Event) : EngM Unit := ([e], Except.ok ())

/-- Abort the run (`raise EasyBuildError` / uncaught exception /
`sys.exit(1)`). -/
def engFail {α : Type} (e : EngineError) : EngM α := ([], Except.error e)

/-- Perform a remote call; a client failure is fatal. -/
def netCall {α : Type} (x : Except Unit α) : EngM α :=
  match x with
  | Except.ok a => ([], Except.ok a)
  | Except.error _ => ([], Except.error EngineError.networkError)

/-- Lift a fallible pure computation. -/
def liftExc {α : Type} (x : Except EngineError α) : EngM α := ([], x)

@[simp] theorem bind_eq {α β : Type} (x : EngM α) (f : α → EngM β) :
    (x >>= f) = EngM.bind x f := rfl

@[simp] theorem pure_eq {α : Type} (a : α) :
    (Pure.pure a : EngM α) = EngM.pure a := rfl

@[simp] theorem EngM.bind_mk_error {α β : Type} (evs : List Event)
    (e : EngineError) (f : α → EngM β) :
    EngM.bind (evs, Except.error e) f = (evs, Except.error e) := rfl

@[simp] theorem EngM.bind_mk_ok {α β : Type} (evs : List Event) (a : α)
    (f : α → EngM β) :
    EngM.bind (evs, Except.ok a) f = (evs ++ (f a).1, (f a).2) := rfl

/-- Python `a or b` for integers (`a` if truthy, i.e. nonzero, else `b`);
used for `pr_range_low or 1` and `pr_range_high or pr_cnt`. -/
def pyOr (a b : Nat) : Nat := if a = 0 then b else a

/-- Python `max` of a list of integers; only ever applied to non-empty
lists (`0` is the fold identity on `Nat`). -/
def pyMax (l : List Nat) : Nat := l.foldl Nat.max 0

/-- Pattern `^[0-9]{4}-[0-9]{2}-[0-9]{2}` matched against a whole code-point
list. -/
def isDatePattern : List Char → Bool
  | [a, b, c, d, e, f, g, h, i, j] =>
    a.isDigit && b.isDigit && c.isDigit && d.isDigit &&
    e = '-' && f.isDigit && g.isDigit && h = '-' && i.isDigit && j.isDigit
  | _ => false

/-- Check `since_regex.match(since)` with pattern `^[0-9]{4}-[0-9]{2}-[0-9]{2}$`:
Python's `$` also matches just before one trailing newline. -/
def validSinceFormat (s : String) : Bool :=
  isDatePattern s.data ||
    (match s.data.getLast? with
     | some c => c = '\n' && isDatePattern s.data.dropLast
     | none => false)

/-- Function `in_range(pr_nr, pr_range)` from `pr_overview.py` (lines 161–171):
`True` when no range is given, else the inclusive bounds check.
The `int(...)` conversions of the source are identities here because
numbers are already carried as `Nat`. -/
def in_range (pr_nr : Nat) (pr_range : Option (Nat × Nat)) : Bool :=
  match pr_range with
  | some lohi => decide (lohi.1 ≤ pr_nr ∧ pr_nr ≤ lohi.2)
  | none => true

/-- The replace scan of lines 278–281:
`for idx in range(len(prs_data)): if prs_data[idx]['number'] == pr_nr:
prs_data[idx] = pr_data; break`.
Returns the (possibly updated) list, the final value of the Python loop
variable `idx` (`none` when the loop body never ran, i.e. `idx` stays
unbound), and whether the loop exited via `break`.  `k` is the index of
the first element of the remaining list within the original list. -/
def pyReplaceLoop (pr : PRData) : List PRData → Nat → List PRData × Option Nat × Bool
  | [], _ => ([], none, false)
  | r :: rest, k =>
    if r.number = pr.number then (pr :: rest, some k, true)
    else
      match pyReplaceLoop pr rest (k + 1) with
      | (rest', idxOpt, broke) => (r :: rest', some (idxOpt.getD k), broke)

/-- The upsert of lines 276–287: replace the record with the same number
if the number is indexed in `pr_nrs`, else append record and number.
The source checks `if idx == len(prs_data)` after the scan to detect a
failed replace; since a Python `for` loop leaves its variable at the last
iterated value (`len - 1` when no `break` fired), that guard is encoded
exactly as written.  An unbound `idx` (empty `prs_data` on the replace
path) is a `NameError`. -/
def upsert (prs_data : List PRData) (pr_nrs : List Nat) (pr : PRData) :
    Except EngineError (List PRData × List Nat) :=
  if pr.number ∈ pr_nrs then
    match pyReplaceLoop pr prs_data 0 with
    | (prs_data', some idx, _) =>
      if idx = prs_data.length then Except.error EngineError.replaceFailed
      else Except.ok (prs_data', pr_nrs)
    | (_, none, _) => Except.error EngineError.idxUnbound
  else
    Except.ok (prs_data ++ [pr], pr_nrs ++ [pr.number])

/-- Build the stored record for a closed PR from its issue payload plus
the merged flag obtained by the extra `pulls[nr].get()` lookup
(lines 263–272). -/
def issueToPR (issue : Issue) (m : Bool) : PRData :=
  { number := issue.number, state := issue.state,
    updated_at := issue.updated_at, created_at := issue.created_at,
    is_merged := m }

/-- Processing of one issue of a page (lines 251–292). -/
def processIssue (client : Client) (update : Bool)
    (pr_range : Option (Nat × Nat)) (st : List PRData × List Nat)
    (issue : Issue) : EngM (List PRData × List Nat) :=
  if issue.has_pull_request = true ∧ (update = true ∨ issue.number ∉ st.2) then do
    -- sys.stdout.write("* PR #%s" % issue['number'])
    emit (Event.visitPR issue.number)
    if ! in_range issue.number pr_range then
      -- ' [out-of-range], ' → continue
      EngM.pure st
    else do
      let pr_data ←
        if issue.state = "open" then do
          emit (Event.pointLookup issue.number)
          netCall (client.pr_data issue.number)
        else do
          -- closed PR: issue data plus one merged-flag lookup
          emit (Event.pointLookup issue.number)
          let m ← netCall (client.merged issue.number)
          EngM.pure (issueToPR issue m)
      liftExc (upsert st.1 st.2 pr_data)
  else
    -- "known PR" / plain issue "[IGNORED]": no mutation
    EngM.pure st

/-- Left-to-right processing of a whole page. -/
def processIssues (client : Client) (update : Bool)
    (pr_range : Option (Nat × Nat)) :
    List Issue → List PRData × List Nat → EngM (List PRData × List Nat)
  | [], st => EngM.pure st
  | issue :: rest, st => do
    let st' ← processIssue client update pr_range st issue
    processIssues client update pr_range rest st'

/-- The watermark / `last_issue_nr` update at the end of each page
(lines 295–313), including the no-progress fallback whose
`datetime.datetime.strptime(since)` call raises `TypeError` (missing
`format` argument) whenever it runs on the string-valued watermark. -/
def pageAdvance (last_issue_nr : Nat) (since : String)
    (issues_data : List Issue) : Except EngineError (Nat × String) :=
  let last_since := since
  let step : Except EngineError (Nat × String) :=
    if issues_data.isEmpty then Except.ok (last_issue_nr, last_since)
    else
      let pageMax := pyMax (issues_data.map (fun i => i.number))
      let l1 := Nat.max last_issue_nr pageMax
      match issues_data.find? (fun i => i.number = l1) with
      | some i => Except.ok (l1, i.updated_at)
      | none =>
        match issues_data.find? (fun i => i.number = pageMax) with
        | some i => Except.ok (pageMax, i.updated_at)
        | none => Except.error EngineError.indexError
  match step with
  | Except.error e => Except.error e
  | Except.ok (l', s') =>
    if last_since = s' then Except.error EngineError.strptimeMissingFormat
    else Except.ok (l', s')

/-- The paging loop `while last_issue_nr < max_pr` (lines 229–313),
bounded by explicit fuel. -/
def engineLoop (client : Client) (update : Bool)
    (pr_range : Option (Nat × Nat)) :
    Nat → Nat → Nat → String → List PRData × List Nat →
    EngM (List PRData × List Nat)
  | 0, last_issue_nr, max_pr, _, st =>
    if last_issue_nr < max_pr then engFail EngineError.outOfFuel
    else EngM.pure st
  | Nat.succ fuel, last_issue_nr, max_pr, since, st =>
    if last_issue_nr < max_pr then do
      emit (Event.listIssues since)
      let issues_data ← netCall (client.issues_since since)
      let st' ← processIssues client update pr_range issues_data st
      let adv ← liftExc (pageAdvance last_issue_nr since issues_data)
      engineLoop client update pr_range fuel adv.1 max_pr adv.2 st'
    else EngM.pure st

/-- Lines 181–188: check the format of a specified `--since` timestamp
and append the end-of-day time. -/
def sinceCheck (since0 : Option String) : EngM (Option String) :=
  match since0 with
  | none => EngM.pure (none : Option String)
  | some s =>
    if validSinceFormat s then EngM.pure (some (s ++ "T23:59:59"))
    else engFail EngineError.badSinceFormat

/-- Lines 201–228: determine which PRs to fetch data for, producing the
starting watermark, `max_pr` and the initial `last_issue_nr`.
With a range: a point lookup for `pr_range_low` supplies `created_at` as
the watermark — and only after that lookup is the conflicting
`--range`/`--since` combination rejected.  Without a range: a preliminary
pulls listing supplies `pr_cnt`; the watermark defaults to the epoch. -/
def determineStart (client : Client) (pr_range : Option (Nat × Nat))
    (since1 : Option String) : EngM (String × Nat × Nat) :=
  match pr_range with
  | some lohi => do
    -- determine creation date of oldest PR (a point lookup!)
    emit (Event.pointLookup lohi.1)
    let d ← netCall (client.pr_data lohi.1)
    let pr_cnt := lohi.2 + 1 - lohi.1
    match since1 with
    | none => EngM.pure (d.created_at, pyOr lohi.2 pr_cnt, pyOr lohi.1 1)
    | some _ => engFail EngineError.rangeAndSince
  | none => do
    emit Event.listPulls
    let prs ← netCall client.pulls_list
    match prs with
    | [] => engFail EngineError.maxEmptyList
    | _ :: _ =>
      let pr_cnt := pyMax (prs.map (fun i => i.number))
      let s := match since1 with
        | none => "1970-01-01T00:00:01Z"
        | some s1 => s1
      EngM.pure (s, pr_cnt, 1)

/-- Lines 201–318 (everything past the early cache return): determine the
start parameters, run the paging loop on the given starting snapshot and
index, then persist and return the final snapshot. -/
def syncRun (fuel : Nat) (client : Client) (update : Bool)
    (pr_range : Option (Nat × Nat)) (since1 : Option String)
    (st : List PRData × List Nat) : EngM (List PRData) := do
  -- determine (since, max_pr, last_issue_nr)
  let init ← determineStart client pr_range since1
  let res ← engineLoop client update pr_range fuel init.2.2 init.2.1 init.1 st
  -- pickle.dump(prs_data, open(pickle_file, 'wb'))
  emit (Event.persist res.1)
  EngM.pure res.1

/-- Function `fetch_prs_data` from `pr_overview.py` (lines 174–320).
`prior` is the snapshot loaded from the positional pickle file (`none`
when no file was given), `pr_range` the parsed `--range`, `since0` the
raw `--since` value. -/
def fetch_prs_data (fuel : Nat) (client : Client)
    (prior : Option (List PRData)) (pr_range : Option (Nat × Nat))
    (update : Bool) (since0 : Option String) : EngM (List PRData) := do
  -- check format of specified timestamp, add time if needed
  let since1 ← sinceCheck since0
  -- load prior snapshot and its number index
  let prs_data := match prior with
    | some d => d
    | none => ([] : List PRData)
  let pr_nrs := match prior with
    | some d => d.map (fun r => r.number)
    | none => ([] : List Nat)
  if prs_data ≠ [] ∧ update = false then
    -- early return: cached data and no --update
    EngM.pure prs_data
  else
    syncRun fuel client update pr_range since1 (prs_data, pr_nrs)

/-- The subsequence of watermark values at which issue pages were
requested: the watermark value at every page boundary of the run. -/
def listIssuesTrace : List Event → List String
  | [] => []
  | ev :: rest =>
    match ev with
    | Event.listIssues s => s :: listIssuesTrace rest
    | Event.visitPR _ => listIssuesTrace rest
    | Event.pointLookup _ => listIssuesTrace rest
    | Event.listPulls => listIssuesTrace rest
    | Event.persist _ => listIssuesTrace rest

@[simp] theorem listIssuesTrace_nil : listIssuesTrace [] = [] := rfl

@[simp] theorem listIssuesTrace_cons_visit (n : Nat) (rest : List Event) :
    listIssuesTrace (Event.visitPR n :: rest) = listIssuesTrace rest := rfl

@[simp] theorem listIssuesTrace_cons_point (n : Nat) (rest : List Event) :
    listIssuesTrace (Event.pointLookup n :: rest) = listIssuesTrace rest := rfl

@[simp] theorem listIssuesTrace_cons_pulls (rest : List Event) :
    listIssuesTrace (Event.listPulls :: rest) = listIssuesTrace rest := rfl

@[simp] theorem listIssuesTrace_cons_list (s : String) (rest : List Event) :
    listIssuesTrace (Event.listIssues s :: rest) =
      s :: listIssuesTrace rest := rfl

@[simp] theorem listIssuesTrace_cons_persist (d : List PRData)
    (rest : List Event) :
    listIssuesTrace (Event.persist d :: rest) = listIssuesTrace rest := rfl

@[simp] theorem listIssuesTrace_append (a b : List Event) :
    listIssuesTrace (a ++ b) = listIssuesTrace a ++ listIssuesTrace b := by
  induction a with
  | nil => rfl
  | cons ev rest ih => cases ev <;> simp [ih]

/-- The replace scan never changes the multiset of PR numbers: the element
it overwrites carries the same `number` as its replacement. -/
theorem pyReplaceLoop_map (pr : PRData) :
    ∀ (l : List PRData) (k : Nat),
      ((pyReplaceLoop pr l k).1).map (fun r => r.number) =
        l.map (fun r => r.number) := by
  intro l
  induction l with
  | nil => intro k; rfl
  | cons r rest ih =>
    intro k
    by_cases h : r.number = pr.number
    · simp [pyReplaceLoop, h]
    · simp only [pyReplaceLoop, if_neg h]
      simp [ih (k + 1)]

/-- Every element of the replace scan's output is an original element or
the new record. -/
theorem pyReplaceLoop_subset (pr : PRData) :
    ∀ (l : List PRData) (k : Nat) (r' : PRData),
      r' ∈ (pyReplaceLoop pr l k).1 → r' ∈ l ∨ r' = pr := by
  intro l
  induction l with
  | nil => intro k r' h; simp [pyReplaceLoop] at h
  | cons r rest ih =>
    intro k r' h
    by_cases hh : r.number = pr.number
    · simp [pyReplaceLoop, hh] at h
      rcases h with h | h
      · right; exact h
      · left; exact List.mem_cons_of_mem _ h
    · simp only [pyReplaceLoop, if_neg hh] at h
      rcases List.mem_cons.mp h with h | h
      · left; exact h ▸ List.mem_cons_self _ _
      · rcases ih (k + 1) r' h with h2 | h2
        · left; exact List.mem_cons_of_mem _ h2
        · right; exact h2

/-- When a record with the sought number is present, the scan overwrites
the first such record in place, breaks, and leaves `idx` at that
position; the position is a valid index. -/
theorem pyReplaceLoop_found (pr : PRData) :
    ∀ (l : List PRData) (k : Nat), (∃ r ∈ l, r.number = pr.number) →
      pyReplaceLoop pr l k =
        (l.set (l.findIdx fun r => r.number == pr.number) pr,
         some (k + l.findIdx fun r => r.number == pr.number), true) ∧
      (l.findIdx fun r => r.number == pr.number) < l.length := by
  intro l
  induction l with
  | nil => intro k h; simp at h
  | cons r rest ih =>
    intro k h
    by_cases hh : r.number = pr.number
    · constructor
      · simp [pyReplaceLoop, hh, List.findIdx_cons]
      · simp [List.findIdx_cons, hh]
    · have hex : ∃ x ∈ rest, x.number = pr.number := by
        rcases h with ⟨x, hx, hxn⟩
        rcases List.mem_cons.mp hx with h1 | h1
        · exact absurd (h1 ▸ hxn) hh
        · exact ⟨x, h1, hxn⟩
      have hbeq : (r.number == pr.number) = false := by
        simp [hh]
      rcases ih (k + 1) hex with ⟨heq, hlt⟩
      constructor
      · simp only [pyReplaceLoop, if_neg hh, heq, List.findIdx_cons, hbeq,
          cond_false, Option.getD_some, List.set_cons_succ, Prod.mk.injEq,
          Option.some.injEq, true_and, and_true, eq_self_iff_true]
        omega
      · simp only [List.findIdx_cons, hbeq, cond_false, List.length_cons]
        omega

/-- Replace path of the upsert: number indexed and record present. -/
theorem upsert_replace (l : List PRData) (nrs : List Nat) (pr : PRData)
    (hmem : pr.number ∈ nrs) (hex : ∃ r ∈ l, r.number = pr.number) :
    upsert l nrs pr =
      Except.ok (l.set (l.findIdx fun r => r.number == pr.number) pr, nrs) := by
  rcases pyReplaceLoop_found pr l 0 hex with ⟨heq, hlt⟩
  unfold upsert
  rw [if_pos hmem, heq]
  simp only [Nat.zero_add]
  rw [if_neg (Nat.ne_of_lt hlt)]

/-- Append path of the upsert: number not indexed. -/
theorem upsert_append (l : List PRData) (nrs : List Nat) (pr : PRData)
    (hmem : pr.number ∉ nrs) :
    upsert l nrs pr = Except.ok (l ++ [pr], nrs ++ [pr.number]) := by
  unfold upsert
  rw [if_neg hmem]

/-- When `pr_nrs` is exactly the number column of `prs_data` (as is the
case throughout a run of the engine), the upsert always succeeds, keeps
the index synchronized, and only adds the new record. -/
theorem upsert_ok_of_sync (l : List PRData) (nrs : List Nat) (pr : PRData)
    (hsync : nrs = l.map (fun r => r.number)) :
    ∃ l' nrs', upsert l nrs pr = Except.ok (l', nrs') ∧
      nrs' = l'.map (fun r => r.number) ∧
      (∀ r' ∈ l', r' ∈ l ∨ r' = pr) ∧
      (∀ m ∈ nrs', m ∈ nrs ∨ m = pr.number) ∧
      (∀ m ∈ nrs, m ∈ nrs') := by
  by_cases hmem : pr.number ∈ nrs
  · have hex : ∃ r ∈ l, r.number = pr.number := by
      rw [hsync] at hmem
      rcases List.mem_map.mp hmem with ⟨r, hr, hrn⟩
      exact ⟨r, hr, hrn⟩
    rcases pyReplaceLoop_found pr l 0 hex with ⟨heq, _⟩
    refine ⟨_, nrs, upsert_replace l nrs pr hmem hex, ?_, ?_, ?_, ?_⟩
    · have hmap := pyReplaceLoop_map pr l 0
      rw [heq] at hmap
      rw [hsync, ← hmap]
    · intro r' hr'
      have : r' ∈ (pyReplaceLoop pr l 0).1 := by rw [heq]; simpa using hr'
      exact pyReplaceLoop_subset pr l 0 r' this
    · intro m hm; exact Or.inl hm
    · intro m hm; exact hm
  · refine ⟨l ++ [pr], nrs ++ [pr.number], upsert_append l nrs pr hmem, ?_, ?_, ?_, ?_⟩
    · simp [hsync]
    · intro r' hr'
      rcases List.mem_append.mp hr' with h | h
      · exact Or.inl h
      · right; simpa using h
    · intro m hm
      rcases List.mem_append.mp hm with h | h
      · exact Or.inl h
      · right; simpa using h
    · intro m hm; exact List.mem_append_left _ hm

/-- Characterization of a successful watermark advance: the new watermark
is the `updated_at` of an issue of the page whose `number` is the new
`last_issue_nr`, which is either the running maximum or the page's
maximum issue number; the page is necessarily non-empty and the
watermark changed. -/
theorem pageAdvance_ok (last : Nat) (since : String) (page : List Issue)
    (l' : Nat) (s' : String)
    (h : pageAdvance last since page = Except.ok (l', s')) :
    ∃ i ∈ page, i.number = l' ∧ s' = i.updated_at ∧ s' ≠ since ∧
      (l' = Nat.max last (pyMax (page.map fun i => i.number)) ∨
       l' = pyMax (page.map fun i => i.number)) := by
  simp only [pageAdvance] at h
  split at h
  · exact absurd h (fun hc => Except.noConfusion hc)
  · rename_i a b heq
    split at h
    · exact absurd h (fun hc => Except.noConfusion hc)
    · rename_i hne
      injection h with h2
      injection h2 with hl hs
      subst hl; subst hs
      split at heq
      · rename_i hemp
        injection heq with heq2
        injection heq2 with hl2 hs2
        exact absurd hs2 hne
      · split at heq
        · rename_i i hfind
          injection heq with heq2
          injection heq2 with hl2 hs2
          subst hl2; subst hs2
          have hi := List.mem_of_find?_eq_some hfind
          have hip := List.find?_some hfind
          simp only [decide_eq_true_eq] at hip
          exact ⟨i, hi, hip, rfl, fun hc => hne hc.symm, Or.inl rfl⟩
        · split at heq
          · rename_i j hfind2
            injection heq with heq2
            injection heq2 with hl2 hs2
            subst hl2; subst hs2
            have hj := List.mem_of_find?_eq_some hfind2
            have hjp := List.find?_some hfind2
            simp only [decide_eq_true_eq] at hjp
            exact ⟨j, hj, hjp, rfl, fun hc => hne hc.symm, Or.inr rfl⟩
          · exact absurd heq (fun hc => Except.noConfusion hc)

/-- An empty page leaves the watermark unchanged, so the no-progress
fallback fires and its single-argument `strptime` call raises
`TypeError` — for every string-valued watermark. -/
theorem pageAdvance_empty (last : Nat) (since : String) :
    pageAdvance last since [] =
      Except.error EngineError.strptimeMissingFormat := by
  simp [pageAdvance]

@[simp] theorem netCall_fst {α : Type} (x : Except Unit α) :
    (netCall x).1 = [] := by cases x <;> rfl

@[simp] theorem netCall_ok {α : Type} (a : α) :
    netCall (Except.ok a) = ([], Except.ok a) := rfl

@[simp] theorem netCall_error {α : Type} (e : Unit) :
    (netCall (Except.error e) : EngM α) =
      ([], Except.error EngineError.networkError) := rfl

@[simp] theorem liftExc_def {α : Type} (x : Except EngineError α) :
    liftExc x = ([], x) := rfl

@[simp] theorem liftExc_fst {α : Type} (x : Except EngineError α) :
    (liftExc x).1 = [] := rfl

@[simp] theorem emit_def (e : Event) : emit e = ([e], Except.ok ()) := rfl

@[simp] theorem engFail_def {α : Type} (e : EngineError) :
    (engFail e : EngM α) = ([], Except.error e) := rfl

@[simp] theorem EngM.pure_def {α : Type} (a : α) :
    (EngM.pure a : EngM α) = ([], Except.ok a) := rfl

/-- A successful upsert only ever adds the new record: every element of
the output snapshot is an original element or the upserted record. -/
theorem upsert_ok_sub (l : List PRData) (nrs : List Nat) (pr : PRData)
    (out : List PRData × List Nat)
    (h : upsert l nrs pr = Except.ok out) :
    ∀ r ∈ out.1, r ∈ l ∨ r = pr := by
  unfold upsert at h
  split at h
  · rcases hpl : pyReplaceLoop pr l 0 with ⟨a, b, c⟩
    rw [hpl] at h
    match b with
    | some idx =>
      simp only at h
      split at h
      · exact absurd h (fun hc => Except.noConfusion hc)
      · injection h with h2
        subst h2
        intro r hr
        have : r ∈ (pyReplaceLoop pr l 0).1 := by rw [hpl]; exact hr
        exact pyReplaceLoop_subset pr l 0 r this
    | none =>
      simp only at h
      exact absurd h (fun hc => Except.noConfusion hc)
  · injection h with h2
    subst h2
    intro r hr
    rcases List.mem_append.mp hr with h3 | h3
    · exact Or.inl h3
    · right; simpa using h3

/-- The events of processing one issue are an initial segment of
“progress line, then one point lookup”. -/
theorem processIssue_events (client : Client) (update : Bool)
    (pr_range : Option (Nat × Nat)) (st : List PRData × List Nat)
    (issue : Issue) :
    (processIssue client update pr_range st issue).1 = [] ∨
    (processIssue client update pr_range st issue).1 =
      [Event.visitPR issue.number] ∨
    (processIssue client update pr_range st issue).1 =
      [Event.visitPR issue.number, Event.pointLookup issue.number] := by
  unfold processIssue
  by_cases h1 : issue.has_pull_request = true ∧
    (update = true ∨ issue.number ∉ st.2)
  · rw [if_pos h1]
    by_cases hr : in_range issue.number pr_range
    · by_cases hs : issue.state = "open"
      · rcases hx : client.pr_data issue.number with _ | x <;>
          simp [hr, hs, hx]
      · rcases hm : client.merged issue.number with _ | m <;>
          simp [hr, hs, hm, netCall]
    · simp [Bool.not_eq_true] at hr
      simp [hr]
  · rw [if_neg h1]
    left
    rfl

/-- Processing one issue contributes no page-boundary event. -/
theorem processIssue_trace_nil (client : Client) (update : Bool)
    (pr_range : Option (Nat × Nat)) (st : List PRData × List Nat)
    (issue : Issue) :
    listIssuesTrace (processIssue client update pr_range st issue).1 = [] := by
  rcases processIssue_events client update pr_range st issue with h | h | h <;>
    rw [h] <;> rfl

/-- Processing one issue never persists the snapshot. -/
theorem processIssue_no_persist (client : Client) (update : Bool)
    (pr_range : Option (Nat × Nat)) (st : List PRData × List Nat)
    (issue : Issue) (d : List PRData) :
    Event.persist d ∉ (processIssue client update pr_range st issue).1 := by
  rcases processIssue_events client update pr_range st issue with h | h | h <;>
    rw [h] <;> simp

/-- Range invariant: when a numeric range is given and the remote client
answers point lookups with records of the requested number, processing
one issue only ever adds in-range records to the snapshot. -/
theorem processIssue_range_inv (client : Client) (update : Bool)
    (lo hi : Nat) (st : List PRData × List Nat) (issue : Issue)
    (st' : List PRData × List Nat)
    (Hc : ∀ n x, client.pr_data n = Except.ok x → x.number = n)
    (hrun : (processIssue client update (some (lo, hi)) st issue).2 =
      Except.ok st')
    (hinv : ∀ r ∈ st.1, lo ≤ r.number ∧ r.number ≤ hi) :
    ∀ r ∈ st'.1, lo ≤ r.number ∧ r.number ≤ hi := by
  unfold processIssue at hrun
  by_cases h1 : issue.has_pull_request = true ∧
    (update = true ∨ issue.number ∉ st.2)
  · rw [if_pos h1] at hrun
    by_cases hr : in_range issue.number (some (lo, hi))
    · have hb : lo ≤ issue.number ∧ issue.number ≤ hi := by
        simpa [in_range] using hr
      by_cases hs : issue.state = "open"
      · rcases hx : client.pr_data issue.number with _ | x
        · simp [hr, hs, hx] at hrun
        · simp only [hr, hs, hx, bind_eq, emit_def, EngM.bind_mk_ok,
            netCall_ok, liftExc_def, if_pos, Bool.not_true, if_true,
            if_false, List.append_nil, List.nil_append] at hrun
          have hup : upsert st.1 st.2 x = Except.ok st' := by
            simpa using hrun
          intro r hrm
          rcases upsert_ok_sub st.1 st.2 x st' hup r hrm with h | h
          · exact hinv r h
          · rw [h, Hc issue.number x hx]
            exact hb
      · rcases hm : client.merged issue.number with _ | m
        · simp [hr, hs, hm] at hrun
        · simp only [hr, hs, hm, bind_eq, emit_def, EngM.bind_mk_ok,
            netCall_ok, liftExc_def, EngM.pure_def, if_neg, Bool.not_true,
            if_false, List.append_nil, List.nil_append] at hrun
          have hup : upsert st.1 st.2 (issueToPR issue m) = Except.ok st' := by
            simpa using hrun
          intro r hrm
          rcases upsert_ok_sub st.1 st.2 (issueToPR issue m) st' hup r hrm
            with h | h
          · exact hinv r h
          · rw [h]
            exact hb
    · simp only [Bool.not_eq_true] at hr
      simp [hr] at hrun
      rw [← hrun]
      exact hinv
  · rw [if_neg h1] at hrun
    simp only [EngM.pure_def] at hrun
    injection hrun with h2
    rw [← h2]
    exact hinv

/-- Totality of one processing step: when the client answers all point
lookups, answers them consistently (a lookup for `n` returns a record
numbered `n`), and the number index is synchronized with the snapshot,
processing an issue succeeds, keeps the index synchronized, tags every
newly indexed number with its progress line, and emits the progress line
of every issue that enters the processing branch. -/
theorem processIssue_total (client : Client) (update : Bool)
    (pr_range : Option (Nat × Nat)) (st : List PRData × List Nat)
    (issue : Issue)
    (Hp : ∀ n, ∃ x, client.pr_data n = Except.ok x)
    (Hm : ∀ n, ∃ b, client.merged n = Except.ok b)
    (Hc : ∀ n x, client.pr_data n = Except.ok x → x.number = n)
    (hsync : st.2 = st.1.map (fun r => r.number)) :
    ∃ st', (processIssue client update pr_range st issue).2 = Except.ok st' ∧
      st'.2 = st'.1.map (fun r => r.number) ∧
      (∀ m ∈ st'.2, m ∈ st.2 ∨
        Event.visitPR m ∈ (processIssue client update pr_range st issue).1) ∧
      ((issue.has_pull_request = true ∧ (update = true ∨ issue.number ∉ st.2)) →
        Event.visitPR issue.number ∈
          (processIssue client update pr_range st issue).1) := by
  unfold processIssue
  by_cases h1 : issue.has_pull_request = true ∧
    (update = true ∨ issue.number ∉ st.2)
  · rw [if_pos h1]
    by_cases hr : in_range issue.number pr_range
    · by_cases hs : issue.state = "open"
      · rcases Hp issue.number with ⟨x, hx⟩
        rcases upsert_ok_of_sync st.1 st.2 x hsync with
          ⟨l', nrs', hup, hsync', _, hnew, _⟩
        refine ⟨(l', nrs'), ?_, hsync', ?_, ?_⟩
        · simp [hr, hs, hx, hup]
        · intro m hm
          rcases hnew m hm with h | h
          · exact Or.inl h
          · right
            rw [h, Hc issue.number x hx]
            simp [hr, hs, hx, hup]
        · intro _
          simp [hr, hs, hx, hup]
      · rcases Hm issue.number with ⟨b, hm⟩
        rcases upsert_ok_of_sync st.1 st.2 (issueToPR issue b) hsync with
          ⟨l', nrs', hup, hsync', _, hnew, _⟩
        refine ⟨(l', nrs'), ?_, hsync', ?_, ?_⟩
        · simp [hr, hs, hm, hup]
        · intro m hm2
          rcases hnew m hm2 with h | h
          · exact Or.inl h
          · right
            rw [h]
            simp [hr, hs, hm, hup, issueToPR]
        · intro _
          simp [hr, hs, hm, hup]
    · simp only [Bool.not_eq_true] at hr
      refine ⟨st, ?_, hsync, ?_, ?_⟩
      · simp [hr]
      · intro m hm
        exact Or.inl hm
      · intro _
        simp [hr]
  · rw [if_neg h1]
    refine ⟨st, rfl, hsync, fun m hm => Or.inl hm, fun hc => absurd hc h1⟩

/-- Processing a page contributes no page-boundary event. -/
theorem processIssues_trace_nil (client : Client) (update : Bool)
    (pr_range : Option (Nat × Nat)) :
    ∀ (l : List Issue) (st : List PRData × List Nat),
      listIssuesTrace (processIssues client update pr_range l st).1 = [] := by
  intro l
  induction l with
  | nil => intro st; rfl
  | cons i rest ih =>
    intro st
    have htr := processIssue_trace_nil client update pr_range st i
    rcases hpi : processIssue client update pr_range st i with ⟨evs1, res1⟩
    rw [hpi] at htr
    cases res1 with
    | error e => simp [processIssues, hpi, htr]
    | ok st1 => simp [processIssues, hpi, htr, ih st1]

/-- Processing a page never persists the snapshot. -/
theorem processIssues_no_persist (client : Client) (update : Bool)
    (pr_range : Option (Nat × Nat)) (d : List PRData) :
    ∀ (l : List Issue) (st : List PRData × List Nat),
      Event.persist d ∉ (processIssues client update pr_range l st).1 := by
  intro l
  induction l with
  | nil => intro st; simp [processIssues]
  | cons i rest ih =>
    intro st
    have hnp := processIssue_no_persist client update pr_range st i d
    rcases hpi : processIssue client update pr_range st i with ⟨evs1, res1⟩
    rw [hpi] at hnp
    cases res1 with
    | error e => simp [processIssues, hpi]; exact hnp
    | ok st1 =>
      simp [processIssues, hpi]
      exact ⟨hnp, ih st1⟩

/-- Range invariant over a whole page. -/
theorem processIssues_range_inv (client : Client) (update : Bool)
    (lo hi : Nat)
    (Hc : ∀ n x, client.pr_data n = Except.ok x → x.number = n) :
    ∀ (l : List Issue) (st st' : List PRData × List Nat),
      (processIssues client update (some (lo, hi)) l st).2 = Except.ok st' →
      (∀ r ∈ st.1, lo ≤ r.number ∧ r.number ≤ hi) →
      ∀ r ∈ st'.1, lo ≤ r.number ∧ r.number ≤ hi := by
  intro l
  induction l with
  | nil =>
    intro st st' hrun hinv
    simp only [processIssues, EngM.pure_def] at hrun
    injection hrun with h2
    rw [← h2]
    exact hinv
  | cons i rest ih =>
    intro st st' hrun hinv
    rcases hpi : processIssue client update (some (lo, hi)) st i with
      ⟨evs1, res1⟩
    cases res1 with
    | error e => simp [processIssues, hpi] at hrun
    | ok st1 =>
      simp only [processIssues, bind_eq, hpi, EngM.bind_mk_ok] at hrun
      have h1 : (processIssue client update (some (lo, hi)) st i).2 =
          Except.ok st1 := by rw [hpi]
      exact ih st1 st' hrun
        (processIssue_range_inv client update lo hi st i st1 Hc h1 hinv)

/-- Page coverage: a PR issue contained in a page is either already
indexed at the start of the page or gets its progress line emitted while
the page is processed (under a total, consistent client and a
synchronized index). -/
theorem processIssues_visits (client : Client) (update : Bool)
    (pr_range : Option (Nat × Nat)) (p : Issue)
    (Hp : ∀ n, ∃ x, client.pr_data n = Except.ok x)
    (Hm : ∀ n, ∃ b, client.merged n = Except.ok b)
    (Hc : ∀ n x, client.pr_data n = Except.ok x → x.number = n) :
    ∀ (l : List Issue) (st : List PRData × List Nat),
      st.2 = st.1.map (fun r => r.number) →
      p ∈ l → p.has_pull_request = true →
      Event.visitPR p.number ∈
        (processIssues client update pr_range l st).1 ∨
      p.number ∈ st.2 := by
  intro l
  induction l with
  | nil => intro st _ hp _; simp at hp
  | cons i rest ih =>
    intro st hsync hp hpr
    rcases processIssue_total client update pr_range st i Hp Hm Hc hsync with
      ⟨st1, hok, hsync1, hnew, hvisit⟩
    rcases hpi : processIssue client update pr_range st i with ⟨evs1, res1⟩
    rw [hpi] at hok hnew hvisit
    simp only at hok
    subst hok
    simp only [processIssues, bind_eq, hpi, EngM.bind_mk_ok]
    rcases List.mem_cons.mp hp with hcase | hcase
    · subst hcase
      by_cases hmem : p.number ∈ st.2
      · exact Or.inr hmem
      · left
        apply List.mem_append_left
        exact hvisit ⟨hpr, Or.inr hmem⟩
    · rcases ih st1 hsync1 hcase hpr with h | h
      · left
        exact List.mem_append_right _ h
      · rcases hnew p.number h with h2 | h2
        · exact Or.inr h2
        · left
          exact List.mem_append_left _ h2

/-- The paging loop never persists the snapshot (persistence happens only
after it, at the very end of `fetch_prs_data`). -/
theorem engineLoop_no_persist (client : Client) (update : Bool)
    (pr_range : Option (Nat × Nat)) (d : List PRData) :
    ∀ (fuel last maxp : Nat) (since : String)
      (st : List PRData × List Nat),
      Event.persist d ∉
        (engineLoop client update pr_range fuel last maxp since st).1 := by
  intro fuel
  induction fuel with
  | zero =>
    intro last maxp since st
    by_cases hc : last < maxp <;> simp [engineLoop, hc]
  | succ fuel ih =>
    intro last maxp since st
    by_cases hc : last < maxp
    · simp only [engineLoop, if_pos hc, bind_eq, emit_def, EngM.bind_mk_ok]
      rcases hnet : client.issues_since since with _ | page
      · simp
      · simp only [netCall_ok, EngM.bind_mk_ok, List.nil_append]
        have hpp := processIssues_no_persist client update pr_range d page st
        rcases hpi : processIssues client update pr_range page st with
          ⟨evs2, res2⟩
        rw [hpi] at hpp
        cases res2 with
        | error e => simp; exact hpp
        | ok st1 =>
          rcases hadv : pageAdvance last since page with e | adv
          · simp [hadv]; exact hpp
          · simp [hadv]
            exact ⟨hpp, ih adv.1 maxp adv.2 st1⟩
    · simp [engineLoop, hc]

/-- Trace shape of the paging loop: the page-boundary watermarks form a
`pyStrLe`-chain headed by the entry watermark (under the precondition
that every listed issue was updated at-or-after the requested `since`). -/
theorem engineLoop_trace (client : Client) (update : Bool)
    (pr_range : Option (Nat × Nat))
    (H : ∀ s page, client.issues_since s = Except.ok page →
      ∀ i ∈ page, pyStrLe s i.updated_at = true) :
    ∀ (fuel last maxp : Nat) (since : String)
      (st : List PRData × List Nat),
      listIssuesTrace
        (engineLoop client update pr_range fuel last maxp since st).1 = [] ∨
      ∃ rest, listIssuesTrace
          (engineLoop client update pr_range fuel last maxp since st).1 =
            since :: rest ∧
        List.Chain' (fun a b => pyStrLe a b = true) (since :: rest) := by
  intro fuel
  induction fuel with
  | zero =>
    intro last maxp since st
    by_cases hc : last < maxp <;> simp [engineLoop, hc]
  | succ fuel ih =>
    intro last maxp since st
    by_cases hc : last < maxp
    · simp only [engineLoop, if_pos hc, bind_eq, emit_def, EngM.bind_mk_ok]
      rcases hnet : client.issues_since since with _ | page
      · right
        exact ⟨[], by simp, List.chain'_singleton since⟩
      · simp only [netCall_ok, EngM.bind_mk_ok, List.nil_append]
        have htr := processIssues_trace_nil client update pr_range page st
        rcases hpi : processIssues client update pr_range page st with
          ⟨evs2, res2⟩
        rw [hpi] at htr
        cases res2 with
        | error e =>
          right
          exact ⟨[], by simp [htr], List.chain'_singleton since⟩
        | ok st1 =>
          rcases hadv : pageAdvance last since page with e | adv
          · right
            exact ⟨[], by simp [hadv, htr], List.chain'_singleton since⟩
          · rcases pageAdvance_ok last since page adv.1 adv.2
              (by rw [hadv]) with ⟨i, hi, _, hs2, _, _⟩
            have hle : pyStrLe since adv.2 = true := by
              rw [hs2]
              exact H since page hnet i hi
            rcases ih adv.1 maxp adv.2 st1 with h | ⟨rest, hrest, hchain⟩
            · right
              refine ⟨[], ?_, List.chain'_singleton since⟩
              simp [hadv, htr, h]
            · right
              refine ⟨adv.2 :: rest, ?_, ?_⟩
              · simp [hadv, htr, hrest]
              · exact List.chain'_cons.mpr ⟨hle, hchain⟩
    · simp [engineLoop, hc]

/-- Range invariant through the whole paging loop. -/
theorem engineLoop_range_inv (client : Client) (update : Bool)
    (lo hi : Nat)
    (Hc : ∀ n x, client.pr_data n = Except.ok x → x.number = n) :
    ∀ (fuel last maxp : Nat) (since : String)
      (st out : List PRData × List Nat),
      (engineLoop client update (some (lo, hi)) fuel last maxp since st).2 =
        Except.ok out →
      (∀ r ∈ st.1, lo ≤ r.number ∧ r.number ≤ hi) →
      ∀ r ∈ out.1, lo ≤ r.number ∧ r.number ≤ hi := by
  intro fuel
  induction fuel with
  | zero =>
    intro last maxp since st out hrun hinv
    by_cases hc : last < maxp
    · simp [engineLoop, hc] at hrun
    · simp only [engineLoop, if_neg hc, EngM.pure_def] at hrun
      injection hrun with h2
      rw [← h2]
      exact hinv
  | succ fuel ih =>
    intro last maxp since st out hrun hinv
    by_cases hc : last < maxp
    · simp only [engineLoop, if_pos hc, bind_eq, emit_def,
        EngM.bind_mk_ok] at hrun
      rcases hnet : client.issues_since since with _ | page
      · simp [hnet] at hrun
      · rw [hnet] at hrun
        simp only [netCall_ok, EngM.bind_mk_ok, List.nil_append] at hrun
        rcases hpi : processIssues client update (some (lo, hi)) page st with
          ⟨evs2, res2⟩
        rw [hpi] at hrun
        cases res2 with
        | error e => simp at hrun
        | ok st1 =>
          simp only [EngM.bind_mk_ok] at hrun
          rcases hadv : pageAdvance last since page with e | adv
          · simp [hadv] at hrun
          · rw [hadv] at hrun
            simp only [liftExc_def, EngM.bind_mk_ok, List.append_nil] at hrun
            have hinv1 : ∀ r ∈ st1.1, lo ≤ r.number ∧ r.number ≤ hi :=
              processIssues_range_inv client update lo hi Hc page st st1
                (by rw [hpi]) hinv
            exact ih adv.1 maxp adv.2 st1 out (by simpa using hrun) hinv1
    · simp only [engineLoop, if_neg hc, EngM.pure_def] at hrun
      injection hrun with h2
      rw [← h2]
      exact hinv

@[simp] theorem sinceCheck_fst (since0 : Option String) :
    (sinceCheck since0).1 = [] := by
  rcases since0 with _ | s
  · rfl
  · by_cases hv : validSinceFormat s <;> simp [sinceCheck, hv]

/-- The start-determination stage performs exactly one remote listing or
point-lookup call and nothing else. -/
theorem determineStart_events (client : Client)
    (pr_range : Option (Nat × Nat)) (since1 : Option String) :
    (∃ n, (determineStart client pr_range since1).1 = [Event.pointLookup n]) ∨
    (determineStart client pr_range since1).1 = [Event.listPulls] := by
  rcases pr_range with _ | lohi
  · right
    rcases hp : client.pulls_list with _ | prs
    · simp [determineStart, hp]
    · rcases prs with _ | ⟨i, rest⟩ <;> simp [determineStart, hp]
  · left
    refine ⟨lohi.1, ?_⟩
    rcases hd : client.pr_data lohi.1 with _ | d
    · simp [determineStart, hd]
    · rcases since1 with _ | s <;> simp [determineStart, hd]

theorem determineStart_trace_nil (client : Client)
    (pr_range : Option (Nat × Nat)) (since1 : Option String) :
    listIssuesTrace (determineStart client pr_range since1).1 = [] := by
  rcases determineStart_events client pr_range since1 with ⟨n, h⟩ | h <;>
    rw [h] <;> rfl

theorem determineStart_no_persist (client : Client)
    (pr_range : Option (Nat × Nat)) (since1 : Option String)
    (d : List PRData) :
    Event.persist d ∉ (determineStart client pr_range since1).1 := by
  rcases determineStart_events client pr_range since1 with ⟨n, h⟩ | h <;>
    rw [h] <;> simp

/-- A failed sync phase has not persisted anything. -/
theorem syncRun_no_persist (fuel : Nat) (client : Client) (update : Bool)
    (pr_range : Option (Nat × Nat)) (since1 : Option String)
    (st : List PRData × List Nat) (e : EngineError) (d : List PRData)
    (h : (syncRun fuel client update pr_range since1 st).2 = Except.error e) :
    Event.persist d ∉ (syncRun fuel client update pr_range since1 st).1 := by
  have hnp1 := determineStart_no_persist client pr_range since1 d
  rcases hds : determineStart client pr_range since1 with ⟨evs1, res1⟩
  rw [hds] at hnp1
  cases res1 with
  | error e1 =>
    simp only [syncRun, bind_eq, hds, EngM.bind_mk_error]
    exact hnp1
  | ok init =>
    have hnp2 := engineLoop_no_persist client update pr_range d fuel
      init.2.2 init.2.1 init.1 st
    rcases hel : engineLoop client update pr_range fuel init.2.2 init.2.1
      init.1 st with ⟨evs2, res2⟩
    rw [hel] at hnp2
    cases res2 with
    | error e2 =>
      simp only [syncRun, bind_eq, hds, EngM.bind_mk_ok, hel,
        EngM.bind_mk_error]
      simp only [List.mem_append]
      rintro (h2 | h2)
      · exact hnp1 h2
      · exact hnp2 h2
    | ok res =>
      exfalso
      simp [syncRun, hds, hel] at h

/-- Page-boundary watermark trace of the sync phase: empty, or a
`pyStrLe`-chain. -/
theorem syncRun_trace (fuel : Nat) (client : Client) (update : Bool)
    (pr_range : Option (Nat × Nat)) (since1 : Option String)
    (st : List PRData × List Nat)
    (H : ∀ s page, client.issues_since s = Except.ok page →
      ∀ i ∈ page, pyStrLe s i.updated_at = true) :
    List.Chain' (fun a b => pyStrLe a b = true)
      (listIssuesTrace (syncRun fuel client update pr_range since1 st).1) := by
  have htr1 := determineStart_trace_nil client pr_range since1
  rcases hds : determineStart client pr_range since1 with ⟨evs1, res1⟩
  rw [hds] at htr1
  cases res1 with
  | error e1 => simp [syncRun, hds, htr1]
  | ok init =>
    have htr2 := engineLoop_trace client update pr_range H fuel
      init.2.2 init.2.1 init.1 st
    rcases hel : engineLoop client update pr_range fuel init.2.2 init.2.1
      init.1 st with ⟨evs2, res2⟩
    rw [hel] at htr2
    cases res2 with
    | error e2 =>
      simp only [syncRun, bind_eq, hds, EngM.bind_mk_ok, hel,
        EngM.bind_mk_error, listIssuesTrace_append, htr1, List.nil_append]
      rcases htr2 with h | ⟨rest, hrest, hchain⟩
      · simp [h]
      · rw [hrest]; exact hchain
    | ok res =>
      simp only [syncRun, bind_eq, hds, EngM.bind_mk_ok, hel, emit_def,
        EngM.pure_def, listIssuesTrace_append, htr1, List.nil_append,
        List.append_nil, listIssuesTrace_cons_persist, listIssuesTrace_nil]
      rcases htr2 with h | ⟨rest, hrest, hchain⟩
      · simp [h]
      · rw [hrest]; exact hchain

/-- Range invariant of the sync phase. -/
theorem syncRun_range_inv (fuel : Nat) (client : Client) (update : Bool)
    (lo hi : Nat) (since1 : Option String) (st : List PRData × List Nat)
    (out : List PRData)
    (Hc : ∀ n x, client.pr_data n = Except.ok x → x.number = n)
    (h : (syncRun fuel client update (some (lo, hi)) since1 st).2 =
      Except.ok out)
    (hinv : ∀ r ∈ st.1, lo ≤ r.number ∧ r.number ≤ hi) :
    ∀ r ∈ out, lo ≤ r.number ∧ r.number ≤ hi := by
  rcases hds : determineStart client (some (lo, hi)) since1 with ⟨evs1, res1⟩
  cases res1 with
  | error e1 => simp [syncRun, hds] at h
  | ok init =>
    rcases hel : engineLoop client update (some (lo, hi)) fuel init.2.2
      init.2.1 init.1 st with ⟨evs2, res2⟩
    cases res2 with
    | error e2 => simp [syncRun, hds, hel] at h
    | ok res =>
      have hout : res.1 = out := by simpa [syncRun, hds, hel] using h
      rw [← hout]
      exact engineLoop_range_inv client update lo hi Hc fuel init.2.2
        init.2.1 init.1 st res (by rw [hel]) hinv

/-- Events already emitted survive any continuation. -/
theorem EngM.mem_bind_left {α β : Type} (x : EngM α) (f : α → EngM β)
    (e : Event) (h : e ∈ x.1) : e ∈ (EngM.bind x f).1 := by
  rcases x with ⟨evs, res⟩
  cases res with
  | error e2 => exact h
  | ok a => exact List.mem_append_left _ h

/-! ## Claims -/

def issueC2 : Issue :=
  { number := 3, state := "open", updated_at := "2020-01-05T00:00:00Z",
    created_at := "2020-01-01T00:00:00Z", has_pull_request := true }

/-- A listing client that always returns an empty page set at any
`since` value. -/
def clientC2 : Client :=
  { pulls_list := Except.ok [issueC2]
    pr_data := fun n => Except.ok
      { number := n, state := "open", updated_at := "2020-01-05T00:00:00Z",
        created_at := "2020-01-01T00:00:00Z", is_merged := false }
    issues_since := fun _ => Except.ok []
    merged := fun _ => Except.ok true }

/-- C2: the no-progress guard is supposed to advance the watermark by one
hour and never fail on a string-valued watermark; in fact the fallback's
`datetime.datetime.strptime(since)` call (line 311) lacks the mandatory
`format` argument, so the very first no-progress page kills the run with
a `TypeError`.  Evaluated here on a client that always returns the same
`since` with an empty page set: the run aborts instead of advancing the
watermark. -/
theorem C2_no_progress_fallback_crashes :
    fetch_prs_data 5 clientC2 none none false none =
      ([Event.listPulls, Event.listIssues "1970-01-01T00:00:01Z"],
        Except.error EngineError.strptimeMissingFormat) := rfl

def recC3present : PRData :=
  { number := 9, state := "open", updated_at := "2020-01-02T00:00:00Z",
    created_at := "2020-01-01T00:00:00Z", is_merged := false }

def recC3new : PRData :=
  { number := 7, state := "closed", updated_at := "2020-01-03T00:00:00Z",
    created_at := "2020-01-01T00:00:00Z", is_merged := true }

/-- C3: an upsert whose PR number is recorded in the index set (`7 ∈
pr_nrs`) but whose record is absent from the snapshot list is supposed to
fail loudly (`sys.exit(1)`); in fact the guard `if idx == len(prs_data)`
(line 282) compares against the Python loop variable, which ends at
`len(prs_data) - 1` when the scan finds nothing, so the upsert returns
successfully with the snapshot unchanged — the new record is silently
dropped. -/
theorem C3_inconsistency_silently_dropped :
    upsert [recC3present] [7, 9] recC3new =
      Except.ok ([recC3present], [7, 9]) := rfl

def issueC4hi : Issue :=
  { number := 5, state := "open", updated_at := "2020-01-01T00:00:00Z",
    created_at := "2019-01-01T00:00:00Z", has_pull_request := true }

def issueC4lo : Issue :=
  { number := 2, state := "open", updated_at := "2020-01-02T00:00:00Z",
    created_at := "2019-01-01T00:00:00Z", has_pull_request := true }

/-- C4 (counterexample): on a page holding issue #5 (updated
2020-01-01) and issue #2 (updated 2020-01-02), the engine sets the
watermark to `"2020-01-01T00:00:00Z"` — the `updated_at` of the
highest-**numbered** issue — which is strictly below the page's maximum
`updated_at`, carried by issue #2. -/
theorem C4_counterexample :
    pageAdvance 1 "2019-06-01T00:00:00Z" [issueC4hi, issueC4lo] =
      Except.ok (5, "2020-01-01T00:00:00Z") ∧
    issueC4lo ∈ [issueC4hi, issueC4lo] ∧
    pyStrLt "2020-01-01T00:00:00Z" issueC4lo.updated_at = true :=
  ⟨rfl, by decide, by decide⟩

/-- C4 (amended): after each successfully processed page the engine sets
the watermark not to the page's maximum `updated_at` but to the
`updated_at` of the issue of the page whose number equals the new
`last_issue_nr` — the maximum of the previous `last_issue_nr` and the
page's maximum issue number when that issue occurs in the page, else the
page's maximum issue number. -/
theorem C4_watermark_from_max_numbered (last : Nat) (since : String)
    (page : List Issue) (l' : Nat) (s' : String)
    (h : pageAdvance last since page = Except.ok (l', s')) :
    ∃ i ∈ page, i.number = l' ∧ s' = i.updated_at ∧ s' ≠ since ∧
      (l' = Nat.max last (pyMax (page.map fun i => i.number)) ∨
       l' = pyMax (page.map fun i => i.number)) :=
  pageAdvance_ok last since page l' s' h

/-- C4 (witness): the amended rule evaluated on the counterexample page. -/
theorem C4_witness :
    ∃ i ∈ [issueC4hi, issueC4lo], i.number = 5 ∧
      "2020-01-01T00:00:00Z" = i.updated_at ∧
      "2020-01-01T00:00:00Z" ≠ "2019-06-01T00:00:00Z" ∧
      (5 = Nat.max 1 (pyMax ([issueC4hi, issueC4lo].map fun i => i.number)) ∨
       5 = pyMax ([issueC4hi, issueC4lo].map fun i => i.number)) :=
  C4_watermark_from_max_numbered 1 "2019-06-01T00:00:00Z"
    [issueC4hi, issueC4lo] 5 "2020-01-01T00:00:00Z" rfl

def recC6 : PRData :=
  { number := 3, state := "open", updated_at := "2021-01-02T00:00:00Z",
    created_at := "2021-01-01T00:00:00Z", is_merged := false }

def clientC6 : Client :=
  { pulls_list := Except.ok []
    pr_data := fun n => Except.ok
      { number := n, state := "open", updated_at := "2021-01-02T00:00:00Z",
        created_at := "2021-01-01T00:00:00Z", is_merged := false }
    issues_since := fun _ => Except.ok []
    merged := fun _ => Except.ok true }

/-- C6 (counterexample): supplying both `range=[3,7]` and
`since="2021-05-05"` does abort the run with the conflict error, but the
event trace shows a point lookup for PR #3 (the `created_at` fetch for
`range_low`, line 208) that was performed **before** the error was
raised (line 213) — so the failure does not precede all network
activity. -/
theorem C6_counterexample :
    (fetch_prs_data 5 clientC6 none (some (3, 7)) false
        (some "2021-05-05")).2 = Except.error EngineError.rangeAndSince ∧
    (fetch_prs_data 5 clientC6 none (some (3, 7)) false
        (some "2021-05-05")).1 = [Event.pointLookup 3] :=
  ⟨rfl, rfl⟩

/-- C6 (amended): whenever both a numeric range and a well-formed
explicit `since` value are supplied (with no usable cached snapshot), the
engine fails with the descriptive conflict error before any page-listing
call — but only after performing exactly one point lookup, the
`created_at` fetch for `range_low`. -/
theorem C6_conflict_after_one_lookup (fuel : Nat) (client : Client)
    (lo hi : Nat) (s : String) (update : Bool) (d : PRData)
    (hv : validSinceFormat s = true)
    (hd : client.pr_data lo = Except.ok d) :
    fetch_prs_data fuel client none (some (lo, hi)) update (some s) =
      ([Event.pointLookup lo], Except.error EngineError.rangeAndSince) := by
  simp [fetch_prs_data, sinceCheck, hv, syncRun, determineStart, hd]

/-- C6 (witness): the amended conflict behaviour at a concrete input. -/
theorem C6_witness :
    fetch_prs_data 5 clientC6 none (some (3, 7)) true (some "2021-05-05") =
      ([Event.pointLookup 3], Except.error EngineError.rangeAndSince) :=
  C6_conflict_after_one_lookup 5 clientC6 3 7 "2021-05-05" true
    { number := 3, state := "open", updated_at := "2021-01-02T00:00:00Z",
      created_at := "2021-01-01T00:00:00Z", is_merged := false }
    (by decide) rfl

/-- C9: a loaded non-empty prior snapshot with `update = false` is
returned unchanged with zero remote calls — the early return (line 197)
tests only non-emptiness and the update flag, so a supplied numeric
range, or a (well-formed) `since` value, or both, do not disable the
cache short-circuit. -/
theorem C9_cache_short_circuit (fuel : Nat) (client : Client)
    (pr_range : Option (Nat × Nat)) (since0 : Option String)
    (d : List PRData)
    (hs : since0 = none ∨ ∃ s, since0 = some s ∧ validSinceFormat s = true)
    (hd : d ≠ []) :
    fetch_prs_data fuel client (some d) pr_range false since0 =
      ([], Except.ok d) := by
  rcases hs with h | ⟨s, h, hv⟩ <;> subst h
  · simp [fetch_prs_data, sinceCheck, hd]
  · simp [fetch_prs_data, sinceCheck, hv, hd]

def recC9 : PRData :=
  { number := 11, state := "open", updated_at := "2022-01-02T00:00:00Z",
    created_at := "2022-01-01T00:00:00Z", is_merged := false }

/-- C9 (witness): a one-record cache is returned unchanged, with an empty
event trace, even though both a range and a since value were supplied. -/
theorem C9_witness :
    fetch_prs_data 4 clientC6 (some [recC9]) (some (1, 5)) false
      (some "2022-03-04") = ([], Except.ok [recC9]) :=
  C9_cache_short_circuit 4 clientC6 (some (1, 5)) (some "2022-03-04")
    [recC9] (Or.inr ⟨"2022-03-04", rfl, by decide⟩) (by simp)

/-- C10: the upsert frame property.  When the number is already indexed
and a record with that number is present, the record is overwritten in
place at the first (and, for a duplicate-free snapshot, only) position
holding that number — `List.set` leaves every other position and the
relative order untouched — and the index set is unchanged.  When the
number is new, the record is appended at the end and the index set gains
exactly that number. -/
theorem C10_upsert_frame (prs_data : List PRData) (pr_nrs : List Nat)
    (pr : PRData) :
    (pr.number ∈ pr_nrs → (∃ r ∈ prs_data, r.number = pr.number) →
      upsert prs_data pr_nrs pr =
        Except.ok
          (prs_data.set (prs_data.findIdx fun r => r.number == pr.number) pr,
            pr_nrs)) ∧
    (pr.number ∉ pr_nrs →
      upsert prs_data pr_nrs pr =
        Except.ok (prs_data ++ [pr], pr_nrs ++ [pr.number])) :=
  ⟨fun hmem hex => upsert_replace prs_data pr_nrs pr hmem hex,
   fun hmem => upsert_append prs_data pr_nrs pr hmem⟩

def recC10a : PRData :=
  { number := 7, state := "open", updated_at := "2020-01-02T00:00:00Z",
    created_at := "2020-01-01T00:00:00Z", is_merged := false }

def recC10b : PRData :=
  { number := 9, state := "open", updated_at := "2020-01-03T00:00:00Z",
    created_at := "2020-01-01T00:00:00Z", is_merged := false }

def recC10b2 : PRData :=
  { number := 9, state := "closed", updated_at := "2020-02-01T00:00:00Z",
    created_at := "2020-01-01T00:00:00Z", is_merged := true }

def recC10new : PRData :=
  { number := 5, state := "open", updated_at := "2020-01-04T00:00:00Z",
    created_at := "2020-01-01T00:00:00Z", is_merged := false }

/-- C10 (witness): both upsert paths at concrete inputs — #9 replaced in
place keeping #7 untouched, #5 appended at the end with its number. -/
theorem C10_witness :
    upsert [recC10a, recC10b] [7, 9] recC10b2 =
      Except.ok ([recC10a, recC10b2], [7, 9]) ∧
    upsert [recC10a] [7] recC10new =
      Except.ok ([recC10a, recC10new], [7, 5]) := by
  constructor
  · have h := (C10_upsert_frame [recC10a, recC10b] [7, 9] recC10b2).1
      (by decide) ⟨recC10b, by decide, rfl⟩
    exact h.trans (by rfl)
  · have h := (C10_upsert_frame [recC10a] [7] recC10new).2 (by decide)
    exact h.trans (by rfl)

/-- C7: with a numeric range `[lo, hi]`, an empty or absent prior
snapshot, and a client whose point lookup for `n` returns a record
numbered `n`, every record of a successfully produced snapshot lies in
the inclusive range: out-of-range issues are skipped (line 255) before
any upsert can add them. -/
theorem C7_range_filtering (fuel : Nat) (client : Client)
    (prior : Option (List PRData)) (lo hi : Nat) (update : Bool)
    (since0 : Option String) (out : List PRData)
    (hprior : prior = none ∨ prior = some [])
    (Hc : ∀ n x, client.pr_data n = Except.ok x → x.number = n)
    (hrun : (fetch_prs_data fuel client prior (some (lo, hi)) update
      since0).2 = Except.ok out) :
    ∀ r ∈ out, lo ≤ r.number ∧ r.number ≤ hi := by
  rcases hsc : sinceCheck since0 with ⟨evs0, res0⟩
  cases res0 with
  | error e0 => simp [fetch_prs_data, hsc] at hrun
  | ok since1 =>
    rcases hprior with h | h <;> subst h <;>
      simp only [fetch_prs_data, bind_eq, hsc, EngM.bind_mk_ok, ne_eq,
        List.map_nil, not_true_eq_false, false_and, if_false] at hrun <;>
      exact syncRun_range_inv fuel client update lo hi since1 ([], []) out
        Hc hrun (by simp)

def issueC7 : Issue :=
  { number := 3, state := "open", updated_at := "2020-01-05T00:00:00Z",
    created_at := "2020-01-02T00:00:00Z", has_pull_request := true }

def recC7 : PRData :=
  { number := 3, state := "open", updated_at := "2020-01-05T00:00:00Z",
    created_at := "2020-01-02T00:00:00Z", is_merged := false }

def clientC7 : Client :=
  { pulls_list := Except.ok [issueC7]
    pr_data := fun n => Except.ok
      { number := n, state := "open", updated_at := "2020-01-05T00:00:00Z",
        created_at := "2020-01-02T00:00:00Z", is_merged := false }
    issues_since := fun _ => Except.ok [issueC7]
    merged := fun _ => Except.ok true }

/-- C7 (witness): a completed run over range `[1, 3]` produced `[recC7]`,
and the theorem places its number inside the bounds. -/
theorem C7_witness : 1 ≤ recC7.number ∧ recC7.number ≤ 3 :=
  C7_range_filtering 2 clientC7 none 1 3 false none [recC7] (Or.inl rfl)
    (fun n x h => by cases h; rfl) rfl recC7 (by simp)

/-- C8: persistence happens only after the paging loop has completed: a
run that ends in any fatal error (bad input, conflict, network failure,
merge failure, the no-progress crash, …) has not emitted the
`pickle.dump` event, so the on-disk snapshot of the previous successful
run is untouched. -/
theorem C8_no_persist_on_failure (fuel : Nat) (client : Client)
    (prior : Option (List PRData)) (pr_range : Option (Nat × Nat))
    (update : Bool) (since0 : Option String) (e : EngineError)
    (d : List PRData)
    (h : (fetch_prs_data fuel client prior pr_range update since0).2 =
      Except.error e) :
    Event.persist d ∉
      (fetch_prs_data fuel client prior pr_range update since0).1 := by
  rcases hsc : sinceCheck since0 with ⟨evs0, res0⟩
  have hevs0 : evs0 = [] := by
    have h2 := sinceCheck_fst since0
    rw [hsc] at h2
    exact h2
  subst hevs0
  cases res0 with
  | error e0 => simp [fetch_prs_data, hsc]
  | ok since1 =>
    simp only [fetch_prs_data, bind_eq, hsc, EngM.bind_mk_ok,
      List.nil_append] at h ⊢
    by_cases hcache :
      (match prior with
        | some d2 => d2
        | none => ([] : List PRData)) ≠ [] ∧ update = false
    · rw [if_pos hcache] at h
      simp at h
    · rw [if_neg hcache] at h ⊢
      exact syncRun_no_persist fuel client update pr_range since1 _ e d h

/-- C8 (witness): the malformed-`since` run fails before persisting. -/
theorem C8_witness :
    Event.persist [] ∉
      (fetch_prs_data 1 clientC6 none none false (some "oops")).1 :=
  C8_no_persist_on_failure 1 clientC6 none none false (some "oops")
    EngineError.badSinceFormat [] rfl

/-- C5: under the precondition that the listing client only returns
issues updated at-or-after the requested `since` value, the watermark
values at the page boundaries of any run form a non-decreasing sequence
(in Python string order, which on the ISO-8601 timestamps is
chronological order): the watermark never moves backward. -/
theorem C5_watermark_monotone (fuel : Nat) (client : Client)
    (prior : Option (List PRData)) (pr_range : Option (Nat × Nat))
    (update : Bool) (since0 : Option String)
    (H : ∀ s page, client.issues_since s = Except.ok page →
      ∀ i ∈ page, pyStrLe s i.updated_at = true) :
    List.Chain' (fun a b => pyStrLe a b = true)
      (listIssuesTrace
        (fetch_prs_data fuel client prior pr_range update since0).1) := by
  rcases hsc : sinceCheck since0 with ⟨evs0, res0⟩
  have hevs0 : evs0 = [] := by
    have h2 := sinceCheck_fst since0
    rw [hsc] at h2
    exact h2
  subst hevs0
  cases res0 with
  | error e0 => simp [fetch_prs_data, hsc]
  | ok since1 =>
    simp only [fetch_prs_data, bind_eq, hsc, EngM.bind_mk_ok,
      List.nil_append]
    by_cases hcache :
      (match prior with
        | some d2 => d2
        | none => ([] : List PRData)) ≠ [] ∧ update = false
    · rw [if_pos hcache]
      simp
    · rw [if_neg hcache]
      exact syncRun_trace fuel client update pr_range since1 _ H

/-- C5 (witness): monotonicity holds on the empty-pages run (whose trace
has exactly one page boundary). -/
theorem C5_witness :
    List.Chain' (fun a b => pyStrLe a b = true)
      (listIssuesTrace (fetch_prs_data 5 clientC2 none none false none).1) :=
  C5_watermark_monotone 5 clientC2 none none false none
    (fun s page hpage i hi => by
      injection hpage with h2
      subst h2
      cases hi)

def issueC1 : Issue :=
  { number := 5, state := "open", updated_at := "2020-01-02T00:00:00Z",
    created_at := "2020-01-01T00:00:00Z", has_pull_request := true }

/-- A client with exactly one PR (#5, updated 2020-01-02): pages are
complete (every issue updated at-or-after the queried `since` is
returned) and point lookups all answer. -/
def clientC1 : Client :=
  { pulls_list := Except.ok [issueC1]
    pr_data := fun n => Except.ok
      { number := n, state := "open", updated_at := "2020-01-02T00:00:00Z",
        created_at := "2020-01-01T00:00:00Z", is_merged := false }
    issues_since := fun s =>
      Except.ok ([issueC1].filter (fun i => pyStrLe s i.updated_at))
    merged := fun _ => Except.ok true }

/-- C1 (counterexample): with range `[5, 5]` the paging loop guard
`while last_issue_nr < max_pr` (line 229) is false from the start
(`5 < 5`), so the run completes successfully with an **empty** snapshot
and no progress line for PR #5 — even though PR #5 is in range, is
listed by the client, and was updated (`2020-01-02`) strictly after the
starting watermark (its `created_at`, `2020-01-01`). -/
theorem C1_counterexample :
    fetch_prs_data 5 clientC1 none (some (5, 5)) false none =
      ([Event.pointLookup 5, Event.persist []], Except.ok []) ∧
    Event.visitPR 5 ∉ [Event.pointLookup 5, Event.persist []] ∧
    clientC1.issues_since "2020-01-01T00:00:00Z" = Except.ok [issueC1] ∧
    issueC1.number = 5 ∧
    issueC1.has_pull_request = true ∧
    pyStrLe "2020-01-01T00:00:00Z" issueC1.updated_at = true :=
  ⟨rfl, by decide, rfl, rfl, rfl, by decide⟩

/-- C1 (amended): coverage holds once the paging loop actually runs and
pages are not truncated: if `1 ≤ range_low < range_high`, the prior
snapshot is absent, no explicit `since` is given, the client answers all
point lookups (with records of the requested number) and returns, for
every queried `since`, the complete set of issues updated at-or-after
it, then every pull-request issue in range whose `updated_at` is
at-or-after the starting watermark (the `created_at` of PR `range_low`)
is visited during the run. -/
theorem C1_coverage_with_complete_pages (fuel : Nat) (client : Client)
    (issues : List Issue) (lo hi : Nat) (d : PRData) (p : Issue)
    (update : Bool)
    (hlo : 1 ≤ lo) (hrange : lo < hi)
    (hd : client.pr_data lo = Except.ok d)
    (Hp : ∀ n, ∃ x, client.pr_data n = Except.ok x)
    (Hm : ∀ n, ∃ b, client.merged n = Except.ok b)
    (Hc : ∀ n x, client.pr_data n = Except.ok x → x.number = n)
    (Hlist : ∀ s, client.issues_since s =
      Except.ok (issues.filter (fun i => pyStrLe s i.updated_at)))
    (hp : p ∈ issues) (hpr : p.has_pull_request = true)
    (_hplo : lo ≤ p.number) (_hphi : p.number ≤ hi)
    (hupd : pyStrLe d.created_at p.updated_at = true) :
    Event.visitPR p.number ∈
      (fetch_prs_data (fuel + 1) client none (some (lo, hi)) update
        none).1 := by
  have hp1 : pyOr lo 1 = lo := by
    unfold pyOr
    rw [if_neg (by omega)]
  have hp2 : pyOr hi (hi + 1 - lo) = hi := by
    unfold pyOr
    rw [if_neg (by omega)]
  have hpmem : p ∈ issues.filter (fun i => pyStrLe d.created_at i.updated_at) :=
    List.mem_filter.mpr ⟨hp, hupd⟩
  have hvis := processIssues_visits client update (some (lo, hi)) p Hp Hm Hc
    (issues.filter (fun i => pyStrLe d.created_at i.updated_at)) ([], [])
    rfl hpmem hpr
  simp only [fetch_prs_data, sinceCheck, bind_eq, EngM.pure_def,
    EngM.bind_mk_ok, List.nil_append]
  rw [if_neg (by simp)]
  simp only [syncRun, determineStart, bind_eq, emit_def, EngM.bind_mk_ok,
    hd, netCall_ok, EngM.pure_def, List.nil_append, List.append_nil]
  rw [hp1, hp2]
  simp only [engineLoop, if_pos hrange, bind_eq, emit_def, EngM.bind_mk_ok,
    Hlist d.created_at, netCall_ok, List.nil_append]
  rcases hpi : processIssues client update (some (lo, hi))
    (issues.filter (fun i => pyStrLe d.created_at i.updated_at)) ([], [])
    with ⟨evsP, resP⟩
  rw [hpi] at hvis
  rcases hvis with hv | hv
  · simp only at hv
    cases resP with
    | error e => simp [List.mem_append, hv]
    | ok st1 =>
      refine List.mem_append_right _ ?_
      refine EngM.mem_bind_left _ _ _ ?_
      refine List.mem_append_right _ ?_
      exact EngM.mem_bind_left _ _ _ hv
  · simp at hv

def issueC1W : Issue :=
  { number := 2, state := "open", updated_at := "2020-01-02T00:00:00Z",
    created_at := "2020-01-01T00:00:00Z", has_pull_request := true }

def recC1W : PRData :=
  { number := 1, state := "open", updated_at := "2020-01-02T00:00:00Z",
    created_at := "2020-01-01T00:00:00Z", is_merged := false }

def clientC1W : Client :=
  { pulls_list := Except.ok [issueC1W]
    pr_data := fun n => Except.ok
      { number := n, state := "open", updated_at := "2020-01-02T00:00:00Z",
        created_at := "2020-01-01T00:00:00Z", is_merged := false }
    issues_since := fun s =>
      Except.ok ([issueC1W].filter (fun i => pyStrLe s i.updated_at))
    merged := fun _ => Except.ok true }

/-- C1 (witness): with range `[1, 3]` (the loop runs) and complete pages,
PR #2 gets its progress line. -/
theorem C1_witness :
    Event.visitPR issueC1W.number ∈
      (fetch_prs_data 2 clientC1W none (some (1, 3)) false none).1 :=
  C1_coverage_with_complete_pages 1 clientC1W [issueC1W] 1 3 recC1W
    issueC1W false (by decide) (by decide) rfl
    (fun n => ⟨_, rfl⟩) (fun n => ⟨true, rfl⟩)
    (fun n x h => by cases h; rfl) (fun s => rfl)
    (List.mem_singleton.mpr rfl) rfl (by decide) (by decide) (by decide)

end PrOverview
